import Mathlib

/-!
Shallow embedding of `src/chapter13/lesson13g.py`: an audit-data ingestion
pipeline (watched folder → CSV rows → embeddings → SQL upserts, with a
persistent dedup ledger `.loaded_files`) and a vector-similarity retrieval
engine over the configured tables.

External collaborators (pandas CSV parsing, the OpenAI embedding provider,
the PostgreSQL store) are modelled as oracles carried in an environment
record; exceptions they may raise are modelled with `Except`.  The SQL
statements issued by the program (`INSERT ... ON CONFLICT (recordid) DO
UPDATE`, `SELECT *, 1 - (embedding <=> q) AS similarity ... ORDER BY
similarity DESC LIMIT 5`) are given their standard semantics over an
explicit table model.
-/

deriving instance DecidableEq for Except

/-- An embedding vector, modelled as a list of rationals (the provider
returns a fixed-dimension numeric vector; its entries are opaque here). -/
abbrev Embedding := List ℚ

/-- One CSV row: an ordered association of column name to the string form
of the cell value (the program only ever uses `str(row[field])` and the
positional values `[*row]`). -/
abbrev Row := List (String × String)

/-- Label lookup `row[field]` on a pandas row: `some` value when the column
exists, `none` when it would raise `KeyError`. -/
def rowLookup (r : Row) (field : String) : Option String :=
  (r.find? (fun kv => kv.1 = field)).map (fun kv => kv.2)

/-- The values of the given fields of a row, in order; `none` as soon as
any field is absent from the row. -/
def lookupAll (r : Row) : List String → Option (List String)
  | [] => some []
  | f :: fs =>
    match rowLookup r f, lookupAll r fs with
    | some v, some vs => some (v :: vs)
    | _, _ => none

/-- Source line 72: `text_for_embedding = " ".join([str(row[field]) for field
in text_fields])`.  A field absent from the row makes `row[field]` raise
`KeyError`, modelled as `Except.error`; otherwise the string forms are
joined with single spaces in declared field order. -/
def text_for_embedding (r : Row) (text_fields : List String) : Except String String :=
  match lookupAll r text_fields with
  | some vs => Except.ok (String.intercalate " " vs)
  | none => Except.error "KeyError"

/-- A row persisted in a target table: all source columns plus the
`embedding` column. -/
structure StoredRow where
  cells : Row
  embedding : Embedding
deriving DecidableEq

/-- A target table's contents, in the store's natural row order. -/
abbrev Table := List StoredRow

/-- The `recordid` column of a row (the upsert conflict key). -/
def recordId (r : Row) : Option String :=
  rowLookup r "recordid"

/-- The record identifiers present in a table, in row order. -/
def ridsOf (tbl : Table) : List (Option String) :=
  tbl.map (fun sr => recordId sr.cells)

/-- Some stored row of `tbl` has the record identifier `x`. -/
def hasRid (tbl : Table) (x : Option String) : Prop :=
  x ∈ ridsOf tbl

instance (tbl : Table) (x : Option String) : Decidable (hasRid tbl x) := by
  unfold hasRid
  infer_instance

/-- Semantics of the SQL issued at source lines 76-84: `INSERT INTO t
(cols..., embedding) VALUES (...) ON CONFLICT (recordid) DO UPDATE SET
col = EXCLUDED.col ..., embedding = EXCLUDED.embedding`.  If no stored row
has this `recordid`, the new row is appended; otherwise every conflicting
row is overwritten in place with the new columns and embedding. -/
def upsertRow (tbl : Table) (r : Row) (emb : Embedding) : Table :=
  if hasRid tbl (recordId r) then
    tbl.map (fun sr => if recordId sr.cells = recordId r then ⟨r, emb⟩ else sr)
  else
    tbl ++ [⟨r, emb⟩]

/-- Folding `upsertRow` over a list of (row, embedding) pairs in order. -/
def upsertAll (tbl : Table) (l : List (Row × Embedding)) : Table :=
  l.foldl (fun t p => upsertRow t p.1 p.2) tbl

/-- Oracles for the external collaborators of the ingestion path:
`readCsv` models `pd.read_csv` (`Except.error` when the file is unreadable
or malformed), `embed` models `get_embedding` / the OpenAI provider
(`Except.error` on provider failure for a given input text), and
`storeFails i` models `cursor.execute` / `conn.commit` raising for the row
at index `i`. -/
structure Env where
  readCsv : String → Except String (List Row)
  embed : String → Except String Embedding
  storeFails : Nat → Bool

/-- The row loop of `load_and_embed_data` (source lines 71-90), started at
row index `i` with current table contents `tbl`.  Per row: build the
embedding text (a `KeyError` escapes the loop — it is raised outside the
inner `try`), call the embedding provider (a failure likewise escapes the
loop), then execute the upsert inside the inner `try`, where a store
failure is caught, logged and skipped.  Returns the table as committed so
far together with the escaped exception, if any (row-by-row `conn.commit`
means rows upserted before an escape stay committed). -/
def processRows (env : Env) (text_fields : List String) :
    Nat → List Row → Table → Table × Option String
  | _, [], tbl => (tbl, none)
  | i, r :: rest, tbl =>
    match text_for_embedding r text_fields with
    | Except.error e => (tbl, some e)
    | Except.ok text =>
      match env.embed text with
      | Except.error e => (tbl, some e)
      | Except.ok emb =>
        processRows env text_fields (i + 1) rest
          (if env.storeFails i then tbl else upsertRow tbl r emb)

/-- Source lines 63-94, `load_and_embed_data(file_path, table_name,
text_fields)` acting on the target table's contents: the whole body is
wrapped in `try ... except Exception`, so the function always returns
normally; a parse failure leaves the table untouched, and an exception
escaping the row loop leaves exactly the rows committed before it. -/
def load_and_embed_data (env : Env) (file_path : String)
    (text_fields : List String) (tbl : Table) : Table :=
  match env.readCsv file_path with
  | Except.error _ => tbl
  | Except.ok rows => (processRows env text_fields 0 rows tbl).1

/-- One entry of `TABLE_CONFIG`: target table name and the ordered text
fields used for embedding input. -/
structure TableCfg where
  table : String
  text_fields : List String
deriving DecidableEq

/-- The static routing table `TABLE_CONFIG`, file name → configuration
(imported from `table_config`, an external collaborator). -/
abbrev Config := List (String × TableCfg)

/-- Dictionary lookup `TABLE_CONFIG[file_name]` (`none` iff
`file_name in TABLE_CONFIG` is false). -/
def configLookup (cfg : Config) (name : String) : Option TableCfg :=
  (cfg.find? (fun kv => kv.1 = name)).map (fun kv => kv.2)

/-- The named tables of the store. -/
abbrev Stores := List (String × Table)

/-- Contents of table `t` (a table never written to is empty). -/
def getTable : Stores → String → Table
  | [], _ => []
  | (k, tbl) :: rest, t => if k = t then tbl else getTable rest t

/-- Replace the contents of table `t` (adding the entry if absent). -/
def setTable : Stores → String → Table → Stores
  | [], t, tbl => [(t, tbl)]
  | (k, v) :: rest, t, tbl =>
    if k = t then (k, tbl) :: rest else (k, v) :: setTable rest t tbl

/-- The mutable state of the monitor process: the in-memory `loaded_files`
set (modelled as a duplicate-free insertion-ordered list), the contents of
the on-disk `.loaded_files` ledger, and the store's tables. -/
structure WatchState where
  loadedFiles : List String
  diskLedger : List String
  stores : Stores
deriving DecidableEq

/-- Accumulator pass of `os.path.basename`: keeps the characters after the
last slash. -/
def basenameChars : List Char → List Char → List Char
  | [], acc => acc.reverse
  | c :: cs, acc =>
    if c = '/' then basenameChars cs [] else basenameChars cs (c :: acc)

/-- Model of `os.path.basename(event.src_path)`. -/
def basename (p : String) : String :=
  String.mk (basenameChars p.toList [])

/-- A watchdog file-system event as consumed by `on_created`. -/
structure FsEvent where
  src_path : String
  is_directory : Bool

/-- Run ingestion for a configured file and record its identifier in the
in-memory `loaded_files` set (shared tail of `on_created` and
`process_existing_files`): `load_and_embed_data(...)` followed by
`loaded_files.add(file_name)`. -/
def ingestAndMark (cfg : TableCfg) (env : Env) (st : WatchState)
    (path name : String) : WatchState :=
  { st with
    loadedFiles := st.loadedFiles ++ [name]
    stores := setTable st.stores cfg.table
      (load_and_embed_data env path cfg.text_fields (getTable st.stores cfg.table)) }

/-- Source lines 98-110, `AuditDataHandler.on_created(event)`: directories
are ignored; for a file whose basename is in `TABLE_CONFIG` and not in
`loaded_files`, run `load_and_embed_data`, add the name to `loaded_files`,
then `save_loaded_files()` (which rewrites the on-disk ledger with the
whole in-memory set). -/
def on_created (config : Config) (env : Env) (st : WatchState)
    (event : FsEvent) : WatchState :=
  if event.is_directory then st
  else
    let name := basename event.src_path
    match configLookup config name with
    | none => st
    | some c =>
      if st.loadedFiles.contains name then st
      else
        let st1 := ingestAndMark c env st event.src_path name
        { st1 with diskLedger := st1.loadedFiles }

/-- A directory entry as enumerated by `os.listdir`, with the result of the
`os.path.isfile` check on its joined path. -/
structure DirEntry where
  name : String
  isFile : Bool

/-- The body of the `for` loop of `process_existing_files` (source lines
114-123) for one directory entry: if it is a file, configured, and not yet
loaded, ingest it and add it to the in-memory set.  Note the on-disk
ledger is NOT written here — `save_loaded_files()` runs only after the
loop. -/
def processOneExisting (config : Config) (env : Env) (folder : String)
    (st : WatchState) (entry : DirEntry) : WatchState :=
  if entry.isFile then
    match configLookup config entry.name with
    | none => st
    | some c =>
      if st.loadedFiles.contains entry.name then st
      else ingestAndMark c env st (folder ++ "/" ++ entry.name) entry.name
  else st

/-- Source lines 113-124, `process_existing_files(folder_path)`: fold the
per-entry body over the listing, then `save_loaded_files()` once, writing
the final in-memory set to the on-disk ledger. -/
def process_existing_files (config : Config) (env : Env) (folder : String)
    (st : WatchState) (listing : List DirEntry) : WatchState :=
  let done := listing.foldl (processOneExisting config env folder) st
  { done with diskLedger := done.loadedFiles }

/-- A value appearing in a fetched SQL result row: a text column, a vector
column, or the numeric `similarity` alias. -/
inductive Val
  | s (v : String)
  | e (v : Embedding)
  | q (v : ℚ)
deriving DecidableEq

/-- Each stored row paired with the `similarity` alias computed by the
store, `1 - (embedding <=> query_embedding)` (source line 177); `sim`
stands for that cosine-similarity computation, opaque beyond comparison. -/
def scoreRows (sim : Embedding → Embedding → ℚ) (tbl : Table)
    (q : Embedding) : List (StoredRow × ℚ) :=
  tbl.map (fun sr => (sr, sim sr.embedding q))

/-- The comparison used by `ORDER BY similarity DESC`: `a` may precede `b`
iff `a`'s score is at least `b`'s. -/
def simOrder (a b : StoredRow × ℚ) : Prop := b.2 ≤ a.2

instance : DecidableRel simOrder :=
  fun a b => inferInstanceAs (Decidable (b.2 ≤ a.2))

instance : IsTotal (StoredRow × ℚ) simOrder :=
  ⟨fun a b => le_total b.2 a.2⟩

instance : IsTrans (StoredRow × ℚ) simOrder :=
  ⟨fun _ _ _ h1 h2 => le_trans h2 h1⟩

/-- Semantics of the SQL at source lines 171-183: score every row of the
table against the query embedding, order by descending similarity (ties in
a store-defined order), and keep at most `LIMIT 5` rows. -/
def similaritySearch (sim : Embedding → Embedding → ℚ) (tbl : Table)
    (q : Embedding) : List (StoredRow × ℚ) :=
  ((scoreRows sim tbl q).insertionSort simOrder).take 5

/-- The record dict built at source line 191 after `pop('similarity')` at
line 198: the displayed `Data:` payload.  `SELECT *` over `table, target`
returns every column of the table — including `embedding` — plus the
`query_embedding` column of the CTE, so both vectors are present. -/
def entryPayload (q : Embedding) (sr : StoredRow) : List (String × Val) :=
  sr.cells.map (fun kv => (kv.1, Val.s kv.2))
    ++ [("embedding", Val.e sr.embedding), ("query_embedding", Val.e q)]

/-- One line of the report (source line 198): the similarity score and the
displayed row payload. -/
structure ReportEntry where
  similarity : ℚ
  payload : List (String × Val)
deriving DecidableEq

/-- One table's `table_results[table_name]` (source line 191): the
fetched top-5 rows turned into report entries. -/
def tableReport (sim : Embedding → Embedding → ℚ) (q : Embedding)
    (tbl : Table) : List ReportEntry :=
  (similaritySearch sim tbl q).map (fun p => ⟨p.2, entryPayload q p.1⟩)

/-- Oracles for the retrieval path: `embedQ` models `get_embedding` on the
query text, `sim` the store's cosine-similarity computation, and
`searchFails t` models the similarity-search SQL raising for table `t`
(connectivity loss, missing table, ...). -/
structure REnv where
  embedQ : String → Except String Embedding
  sim : Embedding → Embedding → ℚ
  searchFails : String → Bool

/-- The per-table loop of `retrieve_data_for_audit_query` (source lines
167-191).  There is no `try` around a table's search: an error raised for
any configured table propagates out of the whole call, discarding the
results already fetched for earlier tables. -/
def collectTables (renv : REnv) (qe : Embedding) (stores : Stores) :
    Config → Except String (List (String × List ReportEntry))
  | [] => Except.ok []
  | (_, c) :: rest =>
    if renv.searchFails c.table then Except.error c.table
    else
      match collectTables renv qe stores rest with
      | Except.error e => Except.error e
      | Except.ok rs =>
        Except.ok ((c.table, tableReport renv.sim qe (getTable stores c.table)) :: rs)

/-- Source lines 158-200, `retrieve_data_for_audit_query(query_text)`:
embed the query (a failure here propagates — call-fatal), then loop over
`TABLE_CONFIG` collecting each table's top-5 entries; the response is
grouped by table in configuration order.  `Except.error` models the call
raising to its caller. -/
def retrieve_data_for_audit_query (renv : REnv) (stores : Stores)
    (config : Config) (query_text : String) :
    Except String (List (String × List ReportEntry)) :=
  match renv.embedQ query_text with
  | Except.error e => Except.error e
  | Except.ok qe => collectTables renv qe stores config

/-- The embedding-input text of a row all of whose configured fields are
present: their values joined by single spaces in declared field order. -/
def textOf (text_fields : List String) (r : Row) : String :=
  String.intercalate " " (text_fields.map (fun f => (rowLookup r f).getD ""))

/-- The provider's embedding for a row's input text, on the success path
(`[]` is a don't-care value for the failure case). -/
def embOf (env : Env) (text_fields : List String) (r : Row) : Embedding :=
  match env.embed (textOf text_fields r) with
  | Except.ok e => e
  | Except.error _ => []

/-- Concrete routing table: the spec's scenario `"vendors.csv" →
vendor_payments, text fields [vendor_name, memo]`. -/
def vendorsCfg : Config :=
  [("vendors.csv", ⟨"vendor_payments", ["vendor_name", "memo"]⟩)]

/-- A concrete CSV row with `recordid` 1. -/
def row1 : Row := [("recordid", "1"), ("vendor_name", "Acme"), ("memo", "rent")]

/-- A concrete CSV row with `recordid` 2. -/
def row2 : Row := [("recordid", "2"), ("vendor_name", "Bolt"), ("memo", "tools")]

/-- Fresh monitor state: empty ledgers, one empty target table. -/
def st0 : WatchState := ⟨[], [], [("vendor_payments", [])]⟩

/-- A creation event for `vendors.csv` in the watched folder. -/
def evVendors : FsEvent := ⟨"/watch/vendors.csv", false⟩

/-- The backlog-scan directory entry for `vendors.csv`. -/
def entryVendors : DirEntry := ⟨"vendors.csv", true⟩

/-- Oracles where reading the CSV fails (unreadable or malformed file). -/
def envParseFail : Env :=
  ⟨fun _ => Except.error "ParseError", fun _ => Except.ok [1], fun _ => false⟩

/-- Oracles where everything succeeds; the file parses to `[row1]`. -/
def envOk : Env :=
  ⟨fun _ => Except.ok [row1], fun _ => Except.ok [1], fun _ => false⟩

/-- Oracles where the file parses to `[row1]` but every embedding call
fails (provider outage). -/
def envEmbedFail : Env :=
  ⟨fun _ => Except.ok [row1], fun _ => Except.error "EmbeddingProviderError",
    fun _ => false⟩

/-- Oracles where the file parses to `[row1, row2]` and the embedding call
fails exactly on `row1`'s input text `"Acme rent"`. -/
def envEmbedRow0 : Env :=
  ⟨fun _ => Except.ok [row1, row2],
    fun t => if t = "Acme rent" then Except.error "EmbeddingProviderError"
             else Except.ok [1],
    fun _ => false⟩

/-- Concrete retrieval config over two tables `t1` and `t2`. -/
def twoCfg : Config := [("a.csv", ⟨"t1", ["x"]⟩), ("b.csv", ⟨"t2", ["x"]⟩)]

/-- A stored row of table `t1`. -/
def srT1 : StoredRow := ⟨[("recordid", "1"), ("amount", "9")], [0, 1]⟩

/-- Concrete store contents: `t1` holds one row, `t2` is empty. -/
def storesT : Stores := [("t1", [srT1]), ("t2", [])]

/-- Retrieval oracles where the similarity search raises on `t2` only. -/
def renvT2Fail : REnv :=
  ⟨fun _ => Except.ok [1, 0], fun _ _ => 0, fun t => t = "t2"⟩

/-- Retrieval oracles where everything succeeds. -/
def renvOk : REnv :=
  ⟨fun _ => Except.ok [1, 0], fun _ _ => (1 : ℚ) / 2, fun _ => false⟩

/-- The report produced by `retrieve_data_for_audit_query renvOk storesT
twoCfg "q"`. -/
def repOk : List (String × List ReportEntry) :=
  [("t1", [⟨(1 : ℚ) / 2,
    [("recordid", Val.s "1"), ("amount", Val.s "9"),
     ("embedding", Val.e [0, 1]), ("query_embedding", Val.e [1, 0])]⟩]),
   ("t2", [])]

/-! ### Helper lemmas about the store model -/

theorem getTable_setTable_eq :
    ∀ (stores : Stores) (t : String) (tbl : Table),
      getTable (setTable stores t tbl) t = tbl
  | [], t, tbl => by simp [getTable, setTable]
  | (k, v) :: rest, t, tbl => by
    by_cases h : k = t
    · simp [getTable, setTable, h]
    · simp [getTable, setTable, h, getTable_setTable_eq rest t tbl]

theorem getTable_setTable_ne :
    ∀ (stores : Stores) (t u : String) (tbl : Table), u ≠ t →
      getTable (setTable stores t tbl) u = getTable stores u
  | [], t, u, tbl, h => by
    have htu : ¬ t = u := fun hh => h hh.symm
    simp [getTable, setTable, htu]
  | (k, v) :: rest, t, u, tbl, h => by
    by_cases hk : k = t
    · subst hk
      have hku : ¬ k = u := fun hh => h hh.symm
      simp [getTable, setTable, hku]
    · simp only [setTable, if_neg hk]
      by_cases hu : k = u
      · simp [getTable, hu]
      · simp [getTable, hu, getTable_setTable_ne rest t u tbl h]

/-! ### Helper lemmas about embedding-input text -/

theorem lookupAll_eq_some (r : Row) :
    ∀ fields : List String, (∀ f ∈ fields, (rowLookup r f).isSome = true) →
      lookupAll r fields = some (fields.map (fun f => (rowLookup r f).getD ""))
  | [], _ => rfl
  | f :: fs, h => by
    obtain ⟨v, hv⟩ := Option.isSome_iff_exists.mp (h f (List.mem_cons_self f fs))
    have ih := lookupAll_eq_some r fs (fun x hx => h x (List.mem_cons_of_mem f hx))
    simp [lookupAll, hv, ih]

theorem lookupAll_eq_none (r : Row) :
    ∀ (fields : List String) (f : String), f ∈ fields → rowLookup r f = none →
      lookupAll r fields = none
  | g :: fs, f, hf, hn => by
    rcases List.mem_cons.mp hf with h1 | h2
    · subst h1
      simp [lookupAll, hn]
    · cases hg : rowLookup r g with
      | none => simp [lookupAll, hg]
      | some v => simp [lookupAll, hg, lookupAll_eq_none r fs f h2 hn]

theorem text_for_embedding_ok (r : Row) (fields : List String)
    (h : ∀ f ∈ fields, (rowLookup r f).isSome = true) :
    text_for_embedding r fields = Except.ok (textOf fields r) := by
  unfold text_for_embedding textOf
  rw [lookupAll_eq_some r fields h]

theorem text_for_embedding_missing (r : Row) (fields : List String) (f : String)
    (hf : f ∈ fields) (h : rowLookup r f = none) :
    text_for_embedding r fields = Except.error "KeyError" := by
  unfold text_for_embedding
  rw [lookupAll_eq_none r fields f hf h]

/-! ### Helper lemmas about the row loop on its success path -/

theorem processRows_ok (env : Env) (fields : List String)
    (hstore : ∀ i, env.storeFails i = false) :
    ∀ (rows : List Row) (i : Nat) (tbl : Table),
      (∀ r ∈ rows, (∀ f ∈ fields, (rowLookup r f).isSome = true) ∧
        (env.embed (textOf fields r)).isOk = true) →
      processRows env fields i rows tbl
        = (upsertAll tbl (rows.map (fun r => (r, embOf env fields r))), none)
  | [], i, tbl, _ => by simp [processRows, upsertAll]
  | r :: rest, i, tbl, h => by
    obtain ⟨hfields, hemb⟩ := h r (List.mem_cons_self r rest)
    have htext := text_for_embedding_ok r fields hfields
    cases he : env.embed (textOf fields r) with
    | error e => rw [he] at hemb; simp [Except.isOk, Except.toBool] at hemb
    | ok emb =>
      have hrest := processRows_ok env fields hstore rest (i + 1)
        (upsertRow tbl r emb) (fun x hx => h x (List.mem_cons_of_mem r hx))
      have hemb2 : embOf env fields r = emb := by unfold embOf; rw [he]
      simp [processRows, htext, he, hstore i, hrest, upsertAll, hemb2]

/-! ### Helper lemmas about record identifiers under upserts -/

theorem length_ridsOf (tbl : Table) : (ridsOf tbl).length = tbl.length := by
  simp [ridsOf]

theorem ridsOf_replaceAll (r : Row) (emb : Embedding) :
    ∀ tbl : Table,
      ridsOf (tbl.map (fun sr =>
        if recordId sr.cells = recordId r then StoredRow.mk r emb else sr))
        = ridsOf tbl
  | [] => rfl
  | sr :: rest => by
    have ih := ridsOf_replaceAll r emb rest
    by_cases hb : recordId sr.cells = recordId r
    · simp [ridsOf, hb] at ih ⊢
      exact ih
    · simp [ridsOf, hb] at ih ⊢
      exact ih

theorem ridsOf_upsertRow (tbl : Table) (r : Row) (emb : Embedding) :
    ridsOf (upsertRow tbl r emb)
      = if hasRid tbl (recordId r) then ridsOf tbl
        else ridsOf tbl ++ [recordId r] := by
  unfold upsertRow
  by_cases h : hasRid tbl (recordId r)
  · simp only [h, if_pos]
    exact ridsOf_replaceAll r emb tbl
  · simp only [h, if_neg, not_false_iff]
    simp [ridsOf]

theorem length_upsertRow (tbl : Table) (r : Row) (emb : Embedding) :
    (upsertRow tbl r emb).length
      = if hasRid tbl (recordId r) then tbl.length else tbl.length + 1 := by
  have h := congrArg List.length (ridsOf_upsertRow tbl r emb)
  rw [length_ridsOf] at h
  rw [h]
  by_cases hr : hasRid tbl (recordId r) <;> simp [hr, length_ridsOf]

theorem hasRid_upsertRow_of (tbl : Table) (r : Row) (emb : Embedding)
    (x : Option String) (h : hasRid tbl x) : hasRid (upsertRow tbl r emb) x := by
  unfold hasRid at h ⊢
  rw [ridsOf_upsertRow]
  split
  · exact h
  · exact List.mem_append_left _ h

theorem hasRid_upsertRow_self (tbl : Table) (r : Row) (emb : Embedding) :
    hasRid (upsertRow tbl r emb) (recordId r) := by
  unfold hasRid
  rw [ridsOf_upsertRow]
  split
  · assumption
  · exact List.mem_append_right _ (List.mem_singleton_self _)

theorem upsertAll_cons (tbl : Table) (p : Row × Embedding)
    (l : List (Row × Embedding)) :
    upsertAll tbl (p :: l) = upsertAll (upsertRow tbl p.1 p.2) l := rfl

theorem hasRid_upsertAll_of (x : Option String) :
    ∀ (l : List (Row × Embedding)) (tbl : Table),
      hasRid tbl x → hasRid (upsertAll tbl l) x
  | [], _, h => h
  | p :: l, tbl, h =>
    hasRid_upsertAll_of x l _ (hasRid_upsertRow_of tbl p.1 p.2 x h)

theorem hasRid_upsertAll_of_mem :
    ∀ (l : List (Row × Embedding)) (tbl : Table) (p : Row × Embedding),
      p ∈ l → hasRid (upsertAll tbl l) (recordId p.1)
  | [], _, p, h => absurd h (List.not_mem_nil p)
  | q :: l, tbl, p, h => by
    rcases List.mem_cons.mp h with h1 | h2
    · subst h1
      exact hasRid_upsertAll_of _ l _ (hasRid_upsertRow_self tbl p.1 p.2)
    · exact hasRid_upsertAll_of_mem l _ p h2

theorem ridsOf_upsertAll_of_forall :
    ∀ (l : List (Row × Embedding)) (tbl : Table),
      (∀ p ∈ l, hasRid tbl (recordId p.1)) →
      ridsOf (upsertAll tbl l) = ridsOf tbl
  | [], _, _ => rfl
  | p :: l, tbl, h => by
    have hp := h p (List.mem_cons_self p l)
    have step : ridsOf (upsertRow tbl p.1 p.2) = ridsOf tbl := by
      rw [ridsOf_upsertRow, if_pos hp]
    have hl : ∀ q ∈ l, hasRid (upsertRow tbl p.1 p.2) (recordId q.1) :=
      fun q hq => hasRid_upsertRow_of tbl p.1 p.2 _ (h q (List.mem_cons_of_mem p hq))
    rw [upsertAll_cons, ridsOf_upsertAll_of_forall l _ hl, step]

theorem upsertAll_twice_length (tbl : Table) (l : List (Row × Embedding)) :
    (upsertAll (upsertAll tbl l) l).length = (upsertAll tbl l).length := by
  have h := ridsOf_upsertAll_of_forall l (upsertAll tbl l)
    (fun p hp => hasRid_upsertAll_of_mem l tbl p hp)
  calc (upsertAll (upsertAll tbl l) l).length
      = (ridsOf (upsertAll (upsertAll tbl l) l)).length := (length_ridsOf _).symm
    _ = (ridsOf (upsertAll tbl l)).length := by rw [h]
    _ = (upsertAll tbl l).length := length_ridsOf _

/-! ### Helper lemmas about the retrieval path -/

theorem length_similaritySearch (sim : Embedding → Embedding → ℚ)
    (tbl : Table) (q : Embedding) : (similaritySearch sim tbl q).length ≤ 5 :=
  List.length_take_le 5 _

theorem mem_similaritySearch (sim : Embedding → Embedding → ℚ) (tbl : Table)
    (q : Embedding) (p : StoredRow × ℚ) (h : p ∈ similaritySearch sim tbl q) :
    p.1 ∈ tbl ∧ p.2 = sim p.1.embedding q := by
  have h1 : p ∈ (scoreRows sim tbl q).insertionSort simOrder :=
    List.mem_of_mem_take h
  have h2 : p ∈ scoreRows sim tbl q := by
    simpa using h1
  unfold scoreRows at h2
  obtain ⟨sr, hsr, heq⟩ := List.mem_map.mp h2
  rw [← heq]
  exact ⟨hsr, rfl⟩

theorem sorted_similaritySearch (sim : Embedding → Embedding → ℚ)
    (tbl : Table) (q : Embedding) :
    (similaritySearch sim tbl q).Pairwise (fun a b => b.2 ≤ a.2) := by
  have hs : ((scoreRows sim tbl q).insertionSort simOrder).Pairwise simOrder :=
    List.sorted_insertionSort simOrder (scoreRows sim tbl q)
  exact List.Pairwise.sublist (List.take_sublist 5 _) hs

theorem collectTables_isOk (renv : REnv) (qe : Embedding) (stores : Stores) :
    ∀ cfg : Config,
      (collectTables renv qe stores cfg).isOk
        = cfg.all (fun p => !renv.searchFails p.2.table)
  | [] => by simp [collectTables, Except.isOk, Except.toBool]
  | (n, c) :: rest => by
    by_cases h : renv.searchFails c.table
    · simp [collectTables, h, Except.isOk, Except.toBool]
    · have ih := collectTables_isOk renv qe stores rest
      cases hr : collectTables renv qe stores rest with
      | error e =>
        rw [hr] at ih
        simp [collectTables, h, hr, Except.isOk, Except.toBool] at ih ⊢
        exact ih
      | ok rs =>
        rw [hr] at ih
        simp [collectTables, h, hr, Except.isOk, Except.toBool] at ih ⊢
        exact ih

theorem collectTables_map_fst (renv : REnv) (qe : Embedding) (stores : Stores) :
    ∀ (cfg : Config) (rs : List (String × List ReportEntry)),
      collectTables renv qe stores cfg = Except.ok rs →
      rs.map Prod.fst = cfg.map (fun p => p.2.table)
  | [], rs, h => by
    simp [collectTables] at h
    subst h
    rfl
  | (n, c) :: rest, rs, h => by
    simp only [collectTables] at h
    by_cases hf : renv.searchFails c.table
    · rw [if_pos hf] at h
      cases h
    · rw [if_neg hf] at h
      cases hr : collectTables renv qe stores rest with
      | error e => rw [hr] at h; cases h
      | ok rs2 =>
        rw [hr] at h
        cases h
        simp [collectTables_map_fst renv qe stores rest rs2 hr]

theorem collectTables_mem (renv : REnv) (qe : Embedding) (stores : Stores) :
    ∀ (cfg : Config) (rs : List (String × List ReportEntry)),
      collectTables renv qe stores cfg = Except.ok rs →
      ∀ pr ∈ rs, pr.2 = tableReport renv.sim qe (getTable stores pr.1)
  | [], rs, h => by
    simp [collectTables] at h
    subst h
    intro pr hpr
    cases hpr
  | (n, c) :: rest, rs, h => by
    simp only [collectTables] at h
    by_cases hf : renv.searchFails c.table
    · rw [if_pos hf] at h
      cases h
    · rw [if_neg hf] at h
      cases hr : collectTables renv qe stores rest with
      | error e => rw [hr] at h; cases h
      | ok rs2 =>
        rw [hr] at h
        cases h
        intro pr hpr
        rcases List.mem_cons.mp hpr with h1 | h2
        · subst h1
          rfl
        · exact collectTables_mem renv qe stores rest rs2 hr pr h2

/-! ### Helper lemmas about the watcher triggers -/

theorem load_and_embed_data_parse_error (env : Env) (p : String)
    (fields : List String) (tbl : Table) (e : String)
    (h : env.readCsv p = Except.error e) :
    load_and_embed_data env p fields tbl = tbl := by
  unfold load_and_embed_data
  rw [h]

theorem on_created_new (config : Config) (env : Env) (st : WatchState)
    (ev : FsEvent) (c : TableCfg)
    (hdir : ev.is_directory = false)
    (hcfg : configLookup config (basename ev.src_path) = some c)
    (hnew : st.loadedFiles.contains (basename ev.src_path) = false) :
    on_created config env st ev
      = { loadedFiles := st.loadedFiles ++ [basename ev.src_path]
          diskLedger := st.loadedFiles ++ [basename ev.src_path]
          stores := setTable st.stores c.table
            (load_and_embed_data env ev.src_path c.text_fields
              (getTable st.stores c.table)) } := by
  have hmem : ¬ basename ev.src_path ∈ st.loadedFiles := by
    simpa using hnew
  unfold on_created ingestAndMark
  rw [hdir]
  simp [hcfg, hmem]

theorem processOneExisting_new (config : Config) (env : Env) (folder : String)
    (st : WatchState) (entry : DirEntry) (c : TableCfg)
    (hfile : entry.isFile = true)
    (hcfg : configLookup config entry.name = some c)
    (hnew : st.loadedFiles.contains entry.name = false) :
    processOneExisting config env folder st entry
      = { loadedFiles := st.loadedFiles ++ [entry.name]
          diskLedger := st.diskLedger
          stores := setTable st.stores c.table
            (load_and_embed_data env (folder ++ "/" ++ entry.name) c.text_fields
              (getTable st.stores c.table)) } := by
  have hmem : ¬ entry.name ∈ st.loadedFiles := by
    simpa using hnew
  unfold processOneExisting ingestAndMark
  rw [hfile, hcfg]
  simp [hmem]

theorem processOneExisting_disk (config : Config) (env : Env) (folder : String)
    (st : WatchState) (entry : DirEntry) :
    (processOneExisting config env folder st entry).diskLedger = st.diskLedger := by
  unfold processOneExisting ingestAndMark
  by_cases hf : entry.isFile = true
  · simp only [hf, if_true]
    cases configLookup config entry.name with
    | none => rfl
    | some c =>
      by_cases hl : entry.name ∈ st.loadedFiles
      · simp [hl]
      · simp [hl]
  · simp [hf]

theorem process_existing_files_disk (config : Config) (env : Env)
    (folder : String) (st : WatchState) (listing : List DirEntry) :
    (process_existing_files config env folder st listing).diskLedger
      = (process_existing_files config env folder st listing).loadedFiles := by
  unfold process_existing_files
  rfl

/-! ### Claims -/

/-- Claim C1, counterexample.  The claim says a file whose parse fails is
NOT added to the dedup ledger and stays eligible for retry.  On the code,
`on_created` calls `load_and_embed_data` (which swallows the `ParseError`)
and then unconditionally runs `loaded_files.add` and `save_loaded_files()`:
with a parse-failing environment the file name lands in both the in-memory
set and the on-disk ledger even though the store is untouched. -/
theorem C1_counterexample :
    on_created vendorsCfg envParseFail st0 evVendors
      = ⟨["vendors.csv"], ["vendors.csv"], [("vendor_payments", [])]⟩ := by
  decide

/-- Claim C1, amended.  If parsing the file fails, ingestion processes no
rows (every table's contents are unchanged), but the file identifier IS
added to the in-memory set and the on-disk ledger by the trigger, so the
file is NOT eligible for retry on the next trigger. -/
theorem C1_parse_failure_still_marked (config : Config) (env : Env)
    (st : WatchState) (ev : FsEvent) (c : TableCfg) (e : String)
    (hdir : ev.is_directory = false)
    (hcfg : configLookup config (basename ev.src_path) = some c)
    (hnew : st.loadedFiles.contains (basename ev.src_path) = false)
    (hparse : env.readCsv ev.src_path = Except.error e) :
    (∀ t, getTable (on_created config env st ev).stores t = getTable st.stores t)
    ∧ (on_created config env st ev).loadedFiles
        = st.loadedFiles ++ [basename ev.src_path]
    ∧ (on_created config env st ev).diskLedger
        = st.loadedFiles ++ [basename ev.src_path] := by
  rw [on_created_new config env st ev c hdir hcfg hnew,
    load_and_embed_data_parse_error env ev.src_path c.text_fields _ e hparse]
  refine ⟨fun t => ?_, rfl, rfl⟩
  by_cases ht : t = c.table
  · subst ht
    exact getTable_setTable_eq st.stores c.table (getTable st.stores c.table)
  · exact getTable_setTable_ne st.stores c.table t (getTable st.stores c.table) ht

/-- Claim C1, witness: the amended statement at the concrete parse-failing
scenario. -/
theorem C1_witness :
    getTable (on_created vendorsCfg envParseFail st0 evVendors).stores
        "vendor_payments" = getTable st0.stores "vendor_payments"
    ∧ (on_created vendorsCfg envParseFail st0 evVendors).loadedFiles
        = st0.loadedFiles ++ ["vendors.csv"] :=
  ⟨(C1_parse_failure_still_marked vendorsCfg envParseFail st0 evVendors
      ⟨"vendor_payments", ["vendor_name", "memo"]⟩ "ParseError" rfl rfl rfl
      rfl).1 "vendor_payments",
   (C1_parse_failure_still_marked vendorsCfg envParseFail st0 evVendors
      ⟨"vendor_payments", ["vendor_name", "memo"]⟩ "ParseError" rfl rfl rfl
      rfl).2.1⟩

/-- Claim C2, counterexample.  The claim says an embedding failure on row
`i` skips only row `i` and the other rows are still upserted.  On the code,
`get_embedding` is called outside the inner `try`, so its exception escapes
the row loop into the file-level handler: with a two-row file whose first
row's embedding fails (and whose second row's embedding would succeed), NO
row is upserted — the second row is lost as well. -/
theorem C2_counterexample :
    (envEmbedRow0.embed "Acme rent").isOk = false
    ∧ envEmbedRow0.embed "Bolt tools" = Except.ok [1]
    ∧ load_and_embed_data envEmbedRow0 "vendors.csv" ["vendor_name", "memo"] []
        = [] := by
  refine ⟨by decide, by decide, by decide⟩

/-- Claim C2, amended.  An embedding failure is not row-fatal but fatal to
the remainder of the file: if rows before `r` all embed successfully and
`r`'s embedding call fails, the row loop stops at `r` — the final table is
exactly the table obtained from the preceding rows alone (rows upserted
before the failure stay committed, `r` and every later row are skipped),
and the loop reports the escaped exception, which the file-level handler
then swallows. -/
theorem C2_embed_failure_aborts_file (env : Env) (fields : List String)
    (r : Row) (t emsg : String)
    (htr : text_for_embedding r fields = Except.ok t)
    (hfail : env.embed t = Except.error emsg) :
    ∀ (pre post : List Row) (i : Nat) (tbl : Table),
      (∀ x ∈ pre, ∃ tx ex, text_for_embedding x fields = Except.ok tx
        ∧ env.embed tx = Except.ok ex) →
      (processRows env fields i (pre ++ r :: post) tbl).1
          = (processRows env fields i pre tbl).1
      ∧ (processRows env fields i (pre ++ r :: post) tbl).2 = some emsg
  | [], post, i, tbl, _ => by
    simp [processRows, htr, hfail]
  | x :: pre, post, i, tbl, h => by
    obtain ⟨tx, ex, hx1, hx2⟩ := h x (List.mem_cons_self x pre)
    have ih := C2_embed_failure_aborts_file env fields r t emsg htr hfail pre post
      (i + 1) (if env.storeFails i then tbl else upsertRow tbl x ex)
      (fun y hy => h y (List.mem_cons_of_mem x hy))
    simpa [processRows, hx1, hx2] using ih

/-- Claim C2, witness: the amended statement at the concrete two-row file
where the second processed row's embedding fails. -/
theorem C2_witness :
    (processRows envEmbedRow0 ["vendor_name", "memo"] 0 [row2, row1] []).1
      = (processRows envEmbedRow0 ["vendor_name", "memo"] 0 [row2] []).1
    ∧ (processRows envEmbedRow0 ["vendor_name", "memo"] 0 [row2, row1] []).2
      = some "EmbeddingProviderError" :=
  C2_embed_failure_aborts_file envEmbedRow0 ["vendor_name", "memo"] row1
    "Acme rent" "EmbeddingProviderError" rfl (by decide) [row2] [] 0 []
    (fun x hx => by
      rw [List.mem_singleton.mp hx]
      exact ⟨"Bolt tools", [1], rfl, by decide⟩)

/-- Claim C3, counterexample.  The claim says a failing table is omitted
and the other tables' results are still returned.  On the code there is no
`try` around a table's search, so the exception propagates out of
`retrieve_data_for_audit_query`: with `t2` failing (and `t1` healthy and
non-empty) the whole call raises and no report at all is produced. -/
theorem C3_counterexample :
    renvT2Fail.searchFails "t1" = false
    ∧ renvT2Fail.searchFails "t2" = true
    ∧ retrieve_data_for_audit_query renvT2Fail storesT twoCfg "q"
        = Except.error "t2" := by
  refine ⟨by decide, by decide, rfl⟩

/-- Claim C3, amended.  A failure in any configured table's similarity
search aborts the whole retrieval call (the exception propagates to the
caller, discarding results already fetched): the call returns a report iff
the query embedding succeeds and no configured table's search fails. -/
theorem C3_search_failure_aborts_call (renv : REnv) (stores : Stores)
    (cfg : Config) (q : String) :
    (retrieve_data_for_audit_query renv stores cfg q).isOk
      = ((renv.embedQ q).isOk && cfg.all (fun p => !renv.searchFails p.2.table)) := by
  unfold retrieve_data_for_audit_query
  cases h : renv.embedQ q with
  | error e => simp [Except.isOk, Except.toBool]
  | ok qe =>
    dsimp only
    rw [collectTables_isOk renv qe stores cfg]
    rfl

/-- Claim C4, counterexample.  The claim says an identifier is in the
ledger iff every row of the file was upserted without throwing.  With an
environment whose embedding provider fails on every call, the single row
of `vendors.csv` is never upserted (the table stays empty), yet
`on_created` still records the identifier in both ledgers. -/
theorem C4_counterexample :
    (on_created vendorsCfg envEmbedFail st0 evVendors).loadedFiles
        = ["vendors.csv"]
    ∧ (on_created vendorsCfg envEmbedFail st0 evVendors).diskLedger
        = ["vendors.csv"]
    ∧ getTable (on_created vendorsCfg envEmbedFail st0 evVendors).stores
        "vendor_payments" = [] := by
  decide

/-- Claim C4, amended.  A file identifier is added to the ledger exactly
when a trigger handles a matching, not-yet-loaded file; the mark is
unconditional on the outcome of parsing, embedding or upserting (it holds
for every environment, including ones where every row fails), so ledger
membership does not certify that any row was upserted. -/
theorem C4_mark_regardless_of_rows (config : Config) (env : Env)
    (st : WatchState) (ev : FsEvent) (c : TableCfg)
    (hdir : ev.is_directory = false)
    (hcfg : configLookup config (basename ev.src_path) = some c)
    (hnew : st.loadedFiles.contains (basename ev.src_path) = false) :
    basename ev.src_path ∈ (on_created config env st ev).loadedFiles
    ∧ basename ev.src_path ∈ (on_created config env st ev).diskLedger := by
  rw [on_created_new config env st ev c hdir hcfg hnew]
  constructor <;>
    exact List.mem_append_right _ (List.mem_singleton_self _)

/-- Claim C4, witness: the amended statement at the concrete scenario
where every embedding call fails. -/
theorem C4_witness :
    "vendors.csv" ∈ (on_created vendorsCfg envEmbedFail st0 evVendors).loadedFiles
    ∧ "vendors.csv" ∈ (on_created vendorsCfg envEmbedFail st0 evVendors).diskLedger :=
  C4_mark_regardless_of_rows vendorsCfg envEmbedFail st0 evVendors
    ⟨"vendor_payments", ["vendor_name", "memo"]⟩ rfl rfl rfl

/-- Claim C5, counterexample.  The claim says a field missing from the row
is treated as the empty string and causes no failure.  On the code,
`row[field]` raises `KeyError` for a missing column: for a row lacking the
configured field `memo`, building the embedding text fails instead of
producing the space-joined text with an empty value. -/
theorem C5_counterexample :
    text_for_embedding [("recordid", "1"), ("vendor_name", "Acme")]
        ["vendor_name", "memo"] = Except.error "KeyError"
    ∧ text_for_embedding [("recordid", "1"), ("vendor_name", "Acme")]
        ["vendor_name", "memo"] ≠ Except.ok "Acme " := by
  decide

/-- Claim C5, amended.  When every configured text field is present in the
row, the embedding-input text is the string forms of those fields joined
by single spaces in declared field order; a field missing from the row
raises an error (which aborts the rest of the file through the file-level
handler) rather than being treated as the empty string. -/
theorem C5_text_join (r : Row) (fields : List String) (f : String) :
    ((∀ g ∈ fields, (rowLookup r g).isSome = true) →
      text_for_embedding r fields = Except.ok (textOf fields r))
    ∧ (f ∈ fields → rowLookup r f = none →
      text_for_embedding r fields = Except.error "KeyError") :=
  ⟨fun h => text_for_embedding_ok r fields h,
   fun hf hn => text_for_embedding_missing r fields f hf hn⟩

/-- Claim C5, witness: the amended statement at a complete row and at a
row lacking the configured field. -/
theorem C5_witness :
    text_for_embedding row1 ["vendor_name", "memo"]
        = Except.ok (textOf ["vendor_name", "memo"] row1)
    ∧ text_for_embedding [("recordid", "2")] ["memo"]
        = Except.error "KeyError" :=
  ⟨(C5_text_join row1 ["vendor_name", "memo"] "memo").1 (by decide),
   (C5_text_join [("recordid", "2")] ["memo"] "memo").2 (by decide) rfl⟩

/-- Claim C6, confirmed.  The upsert writes one row such that: with no
stored row carrying this `recordid` the new row (all columns plus
embedding) is appended; with one present, it is overwritten in place with
the new columns and embedding (the table's length is unchanged and the new
row is in the table).  Each upsert is a single step of the model (one
statement in one per-row transaction in the code).  Consequently running
the full row loop of `load_and_embed_data` a second time over the same
parsed file on the table it just produced leaves the table's row count
unchanged. -/
theorem C6_upsert_idempotent (env : Env) (fields : List String)
    (rows : List Row) (tbl tbl2 : Table) (r : Row) (emb : Embedding)
    (hstore : ∀ i, env.storeFails i = false)
    (hrows : ∀ x ∈ rows, (∀ f ∈ fields, (rowLookup x f).isSome = true)
      ∧ (env.embed (textOf fields x)).isOk = true) :
    (¬ hasRid tbl2 (recordId r) → upsertRow tbl2 r emb = tbl2 ++ [⟨r, emb⟩])
    ∧ (hasRid tbl2 (recordId r) → (upsertRow tbl2 r emb).length = tbl2.length
        ∧ StoredRow.mk r emb ∈ upsertRow tbl2 r emb)
    ∧ (processRows env fields 0 rows
        (processRows env fields 0 rows tbl).1).1.length
        = (processRows env fields 0 rows tbl).1.length := by
  refine ⟨?_, ?_, ?_⟩
  · intro h
    unfold upsertRow
    rw [if_neg h]
  · intro h
    unfold upsertRow
    rw [if_pos h]
    constructor
    · exact List.length_map _ _
    · obtain ⟨sr, hsr, heq⟩ := List.mem_map.mp h
      exact List.mem_map.mpr ⟨sr, hsr, by rw [if_pos heq]⟩
  · have h1 := processRows_ok env fields hstore rows 0 tbl hrows
    have h2 := processRows_ok env fields hstore rows 0
      (upsertAll tbl (rows.map (fun x => (x, embOf env fields x)))) hrows
    rw [h1]
    rw [h2]
    exact upsertAll_twice_length tbl _

/-- Claim C6, witness: insertion of a fresh `recordid` appends, and a
second full pass over the same two-row file leaves the row count at 2. -/
theorem C6_witness :
    upsertRow [] row1 [1] = [⟨row1, [1]⟩]
    ∧ (processRows envOk ["vendor_name", "memo"] 0 [row1, row2]
        (processRows envOk ["vendor_name", "memo"] 0 [row1, row2] []).1).1.length
      = (processRows envOk ["vendor_name", "memo"] 0 [row1, row2] []).1.length :=
  ⟨(C6_upsert_idempotent envOk ["vendor_name", "memo"] [row1, row2] [] [] row1 [1]
      (fun _ => rfl) (by decide)).1 (by decide),
   (C6_upsert_idempotent envOk ["vendor_name", "memo"] [row1, row2] [] [] row1 [1]
      (fun _ => rfl) (by decide)).2.2⟩

/-- Claim C7, confirmed.  Per configured table the similarity search
returns at most `LIMIT 5` rows, sorted in descending order of the store's
cosine-similarity score `1 - (embedding <=> query_embedding)` (modelled by
the opaque score function `sim`), each returned score being exactly the
score of that row's stored embedding against the query embedding; in any
successfully returned report every table's entry list likewise has at most
5 rows. -/
theorem C7_retrieval_ranking :
    (∀ (sim : Embedding → Embedding → ℚ) (tbl : Table) (q : Embedding),
      (similaritySearch sim tbl q).length ≤ 5
      ∧ (similaritySearch sim tbl q).Pairwise (fun a b => b.2 ≤ a.2)
      ∧ ∀ p ∈ similaritySearch sim tbl q, p.2 = sim p.1.embedding q)
    ∧ (∀ (renv : REnv) (stores : Stores) (cfg : Config) (q : String)
        (rep : List (String × List ReportEntry)),
        retrieve_data_for_audit_query renv stores cfg q = Except.ok rep →
        ∀ pr ∈ rep, pr.2.length ≤ 5) := by
  constructor
  · intro sim tbl q
    exact ⟨length_similaritySearch sim tbl q, sorted_similaritySearch sim tbl q,
      fun p hp => (mem_similaritySearch sim tbl q p hp).2⟩
  · intro renv stores cfg q rep h pr hpr
    unfold retrieve_data_for_audit_query at h
    cases hq : renv.embedQ q with
    | error e => rw [hq] at h; cases h
    | ok qe =>
      rw [hq] at h
      dsimp only at h
      rw [collectTables_mem renv qe stores cfg rep h pr hpr]
      unfold tableReport
      rw [List.length_map]
      exact length_similaritySearch _ _ _

/-- Claim C7, witness: the ranking statement at a concrete one-row table
and the report-length statement at a concrete successful retrieval. -/
theorem C7_witness :
    (srT1, (1 : ℚ) / 2).2 = renvOk.sim srT1.embedding [1, 0]
    ∧ ([] : List ReportEntry).length ≤ 5 :=
  ⟨(C7_retrieval_ranking.1 renvOk.sim [srT1] [1, 0]).2.2 (srT1, (1 : ℚ) / 2)
      (by
        rw [show similaritySearch renvOk.sim [srT1] [1, 0]
            = [(srT1, (1 : ℚ) / 2)] from rfl]
        exact List.mem_singleton_self _),
   C7_retrieval_ranking.2 renvOk storesT twoCfg "q" repOk rfl ("t2", [])
      (by decide)⟩

/-- Claim C8, counterexample.  The claim says the embedding vector is
excluded from each displayed payload.  The SQL is `SELECT *` over the
table joined with the query CTE, so the fetched record includes the
`embedding` column (and the `query_embedding` column); only the
`similarity` key is popped before display — the concrete report's payload
visibly contains the stored embedding vector. -/
theorem C8_counterexample :
    retrieve_data_for_audit_query renvOk storesT twoCfg "q" = Except.ok repOk
    ∧ repOk = [("t1", [⟨(1 : ℚ) / 2, entryPayload [1, 0] srT1⟩]), ("t2", [])]
    ∧ ("embedding", Val.e [0, 1]) ∈ entryPayload [1, 0] srT1 := by
  refine ⟨rfl, rfl, by decide⟩

/-- Claim C8, amended.  The report is grouped by table (one group per
configured table, in configuration order), and each entry shows the
similarity score together with the full fetched row payload — which
contains the row's columns AND its embedding vector (plus the query
embedding from the SQL CTE); the embedding is NOT excluded from the
displayed payload, only the `similarity` key is removed. -/
theorem C8_report_contents :
    (∀ (sim : Embedding → Embedding → ℚ) (qe : Embedding) (tbl : Table)
        (p : StoredRow × ℚ), p ∈ similaritySearch sim tbl qe →
      p.1 ∈ tbl
      ∧ ReportEntry.mk p.2 (entryPayload qe p.1) ∈ tableReport sim qe tbl
      ∧ ("embedding", Val.e p.1.embedding) ∈ entryPayload qe p.1
      ∧ ("query_embedding", Val.e qe) ∈ entryPayload qe p.1
      ∧ ∀ kv ∈ p.1.cells, (kv.1, Val.s kv.2) ∈ entryPayload qe p.1)
    ∧ (∀ (renv : REnv) (stores : Stores) (cfg : Config) (q : String)
        (rep : List (String × List ReportEntry)),
        retrieve_data_for_audit_query renv stores cfg q = Except.ok rep →
        rep.map Prod.fst = cfg.map (fun pr => pr.2.table)) := by
  constructor
  · intro sim qe tbl p hp
    refine ⟨(mem_similaritySearch sim tbl qe p hp).1, ?_, ?_, ?_, ?_⟩
    · exact List.mem_map.mpr ⟨p, hp, rfl⟩
    · simp [entryPayload]
    · simp [entryPayload]
    · intro kv hkv
      exact List.mem_append_left _ (List.mem_map.mpr ⟨kv, hkv, rfl⟩)
  · intro renv stores cfg q rep h
    unfold retrieve_data_for_audit_query at h
    cases hq : renv.embedQ q with
    | error e => rw [hq] at h; cases h
    | ok qe =>
      rw [hq] at h
      dsimp only at h
      exact collectTables_map_fst renv qe stores cfg rep h

/-- Claim C8, witness: the amended statement at the concrete store and the
concrete successful retrieval. -/
theorem C8_witness :
    srT1 ∈ [srT1]
    ∧ ("embedding", Val.e srT1.embedding) ∈ entryPayload [1, 0] srT1
    ∧ repOk.map Prod.fst = twoCfg.map (fun pr => pr.2.table) :=
  ⟨(C8_report_contents.1 renvOk.sim [1, 0] [srT1] (srT1, (1 : ℚ) / 2)
      (by
        rw [show similaritySearch renvOk.sim [srT1] [1, 0]
            = [(srT1, (1 : ℚ) / 2)] from rfl]
        exact List.mem_singleton_self _)).1,
   (C8_report_contents.1 renvOk.sim [1, 0] [srT1] (srT1, (1 : ℚ) / 2)
      (by
        rw [show similaritySearch renvOk.sim [srT1] [1, 0]
            = [(srT1, (1 : ℚ) / 2)] from rfl]
        exact List.mem_singleton_self _)).2.2.1,
   C8_report_contents.2 renvOk storesT twoCfg "q" repOk rfl⟩

/-- Claim C9, counterexample.  The claim says that during the startup
backlog scan each file's identifier reaches the on-disk ledger before the
next file is handled.  The loop body of `process_existing_files` only does
`loaded_files.add`; `save_loaded_files()` runs once after the whole loop:
after one fully successful backlog ingestion the identifier is in the
in-memory set (and the row is upserted) while the on-disk ledger is still
empty, so a crash here would lose the mark. -/
theorem C9_counterexample :
    processOneExisting vendorsCfg envOk "audit" st0 entryVendors
      = ⟨["vendors.csv"], [], [("vendor_payments", [⟨row1, [1]⟩])]⟩ := by
  decide

/-- Claim C9, amended.  Only the live-event path is write-through: after
`on_created` handles a matching new file, the on-disk ledger equals the
in-memory set and contains the identifier before the next event.  During
the startup backlog scan, handling one file never writes the disk ledger
(the per-entry step leaves it untouched); the scan writes the whole set to
disk once, after all backlog files have been processed. -/
theorem C9_ledger_write_timing (config : Config) (env : Env) (st : WatchState)
    (ev : FsEvent) (c : TableCfg) (folder : String) (entry : DirEntry)
    (listing : List DirEntry)
    (hdir : ev.is_directory = false)
    (hcfg : configLookup config (basename ev.src_path) = some c)
    (hnew : st.loadedFiles.contains (basename ev.src_path) = false) :
    ((on_created config env st ev).diskLedger
        = (on_created config env st ev).loadedFiles
      ∧ basename ev.src_path ∈ (on_created config env st ev).diskLedger)
    ∧ (processOneExisting config env folder st entry).diskLedger = st.diskLedger
    ∧ (process_existing_files config env folder st listing).diskLedger
        = (process_existing_files config env folder st listing).loadedFiles := by
  refine ⟨⟨?_, ?_⟩, processOneExisting_disk config env folder st entry,
    process_existing_files_disk config env folder st listing⟩
  · rw [on_created_new config env st ev c hdir hcfg hnew]
  · rw [on_created_new config env st ev c hdir hcfg hnew]
    exact List.mem_append_right _ (List.mem_singleton_self _)

/-- Claim C9, witness: the amended statement at the concrete scenario
(live event for `vendors.csv`; one backlog entry; empty listing). -/
theorem C9_witness :
    ((on_created vendorsCfg envOk st0 evVendors).diskLedger
        = (on_created vendorsCfg envOk st0 evVendors).loadedFiles
      ∧ "vendors.csv" ∈ (on_created vendorsCfg envOk st0 evVendors).diskLedger)
    ∧ (processOneExisting vendorsCfg envOk "audit" st0 entryVendors).diskLedger
        = st0.diskLedger
    ∧ (process_existing_files vendorsCfg envOk "audit" st0 []).diskLedger
        = (process_existing_files vendorsCfg envOk "audit" st0 []).loadedFiles :=
  C9_ledger_write_timing vendorsCfg envOk st0 evVendors
    ⟨"vendor_payments", ["vendor_name", "memo"]⟩ "audit" entryVendors []
    rfl rfl rfl

/-- Claim C10, confirmed.  `load_and_embed_data` is modelled as a total
function: the `try ... except Exception` around its whole body means it
returns normally for every oracle environment (unreadable file, per-row
embedding failure, store failure).  Consequently, for EVERY environment, a
trigger on a matching not-yet-loaded file runs to completion and appends
the identifier to the loaded-files set exactly once — on the event path
(`on_created`) and on the backlog path (`process_existing_files`'s
per-entry step) alike. -/
theorem C10_trigger_always_marks_once (config : Config) (env : Env)
    (st : WatchState) (ev : FsEvent) (c c2 : TableCfg) (folder : String)
    (entry : DirEntry)
    (hdir : ev.is_directory = false)
    (hcfg : configLookup config (basename ev.src_path) = some c)
    (hnew : st.loadedFiles.contains (basename ev.src_path) = false)
    (hfile : entry.isFile = true)
    (hcfg2 : configLookup config entry.name = some c2)
    (hnew2 : st.loadedFiles.contains entry.name = false) :
    (on_created config env st ev).loadedFiles
        = st.loadedFiles ++ [basename ev.src_path]
    ∧ (on_created config env st ev).loadedFiles.count (basename ev.src_path) = 1
    ∧ (processOneExisting config env folder st entry).loadedFiles
        = st.loadedFiles ++ [entry.name] := by
  have hmem : ¬ basename ev.src_path ∈ st.loadedFiles := by
    simpa using hnew
  refine ⟨?_, ?_, ?_⟩
  · rw [on_created_new config env st ev c hdir hcfg hnew]
  · rw [on_created_new config env st ev c hdir hcfg hnew]
    simp [List.count_append, List.count_eq_zero.mpr hmem]
  · rw [processOneExisting_new config env folder st entry c2 hfile hcfg2 hnew2]

/-- Claim C10, witness: both triggers at concrete failing environments
(parse failure on the event path, total embedding failure on the backlog
path) still append the identifier exactly once. -/
theorem C10_witness :
    (on_created vendorsCfg envParseFail st0 evVendors).loadedFiles
        = st0.loadedFiles ++ ["vendors.csv"]
    ∧ (on_created vendorsCfg envParseFail st0 evVendors).loadedFiles.count
        "vendors.csv" = 1
    ∧ (processOneExisting vendorsCfg envEmbedFail "audit" st0 entryVendors).loadedFiles
        = st0.loadedFiles ++ ["vendors.csv"] := by
  have h := C10_trigger_always_marks_once vendorsCfg envParseFail st0 evVendors
    ⟨"vendor_payments", ["vendor_name", "memo"]⟩
    ⟨"vendor_payments", ["vendor_name", "memo"]⟩ "audit" entryVendors
    rfl rfl rfl rfl rfl rfl
  have h2 := C10_trigger_always_marks_once vendorsCfg envEmbedFail st0 evVendors
    ⟨"vendor_payments", ["vendor_name", "memo"]⟩
    ⟨"vendor_payments", ["vendor_name", "memo"]⟩ "audit" entryVendors
    rfl rfl rfl rfl rfl rfl
  exact ⟨h.1, h.2.1, h2.2.2⟩
